import Mathlib

/-!
Shallow embedding of the email-classification pipeline of
`src/Modulo_C_D` (main.py together with the collaborator clients in
`actions/`), and theorems settling the specification claims.

Texts are modelled as `List Char`.  The regex classes `\d` and `\w` of
Python are modelled over ASCII (`Char.isDigit`, letters/digits/underscore),
which is the alphabet the patterns are about.
-/

namespace ModuloCD

/-- ASCII model of a regex word character (Python `\w`):
letters, digits, and the underscore. -/
def isWordChar (c : Char) : Bool := c.isAlphanum || c == '_'

/-- `matchDigits n s` consumes exactly `n` ASCII digits from the front of
`s` (the regex atom `\d\x7bn\x7d`), returning the unconsumed rest, or
`none` if some of the first `n` characters is missing or not a digit. -/
def matchDigits : Nat → List Char → Option (List Char)
  | 0, s => some s
  | _ + 1, [] => none
  | n + 1, c :: s => if c.isDigit then matchDigits n s else none

/-- `matchOpt c s` consumes a leading `c` when present (the regex atom
`c?`).  In both patterns of `extract_cpf_cep` every optional character is
a non-digit immediately followed by a digit atom, so the greedy
take-it-iff-present strategy coincides with Python's backtracking: if the
character is present, the skipping alternative dies at the next digit
atom, and conversely. -/
def matchOpt (c : Char) : List Char → List Char
  | [] => []
  | x :: s => if x == c then s else x :: s

/-- Body of the CPF regex `\d\x7b3\x7d\.?\d\x7b3\x7d\.?\d\x7b3\x7d-?\d\x7b2\x7d`
(main.py line 19, without the surrounding `\b`), returning the unconsumed
rest of the input on success. -/
def cpf_body (s : List Char) : Option (List Char) :=
  (matchDigits 3 s).bind fun s1 =>
  (matchDigits 3 (matchOpt '.' s1)).bind fun s2 =>
  (matchDigits 3 (matchOpt '.' s2)).bind fun s3 =>
  matchDigits 2 (matchOpt '-' s3)

/-- Body of the CEP regex `\d\x7b5\x7d-?\d\x7b3\x7d` (main.py line 22,
without the surrounding `\b`). -/
def cep_body (s : List Char) : Option (List Char) :=
  (matchDigits 5 s).bind fun s1 =>
  matchDigits 3 (matchOpt '-' s1)

/-- The trailing `\b` of both patterns: the last consumed character is a
digit (a word character), so the boundary holds iff the next character,
if any, is not a word character. -/
def noWordAhead : List Char → Bool
  | [] => true
  | c :: _ => !isWordChar c

/-- The leading `\b` of both patterns: the first matched character is a
digit (a word character), so the boundary holds iff the previous
character, if any, is not a word character. -/
def boundaryBefore : Option Char → Bool
  | none => true
  | some c => !isWordChar c

/-- Leftmost-match search, the model of Python `re.search` for the two
patterns above: try every start position from the left; at a position the
attempt succeeds iff the leading boundary holds, the body matches, and
the trailing boundary holds on the rest.  `prev` is the character just
before the current position (`none` at the start of the text).  The
bodies are deterministic (see `matchOpt`), so no other backtracking
alternative exists at a given start position. -/
def re_search (body : List Char → Option (List Char)) :
    Option Char → List Char → Option (List Char)
  | _, [] => none
  | prev, c :: rest =>
    match (if boundaryBefore prev then body (c :: rest) else none) with
    | some r =>
      if noWordAhead r then
        some ((c :: rest).take ((c :: rest).length - r.length))
      else re_search body (some c) rest
    | none => re_search body (some c) rest

/-- The dictionary returned by `extract_cpf_cep` (main.py lines 27-30):
each field is the matched substring, or `none` when the pattern has no
match. -/
structure ExtractedFields where
  cpf : Option (List Char)
  cep : Option (List Char)
deriving DecidableEq, Repr

/-- `extract_cpf_cep` (main.py lines 8-30): search each pattern in the
text independently and return both results. -/
def extract_cpf_cep (text : List Char) : ExtractedFields :=
  { cpf := re_search cpf_body none text
    cep := re_search cep_body none text }

/-! ### Declarative characterisation of the two patterns -/

/-- `Opt c l`: `l` is an occurrence of the regex atom `c?`. -/
def Opt (c : Char) (l : List Char) : Prop := l = [] ∨ l = [c]

/-- `DigitRun n l`: `l` is an occurrence of `\d` repeated `n` times. -/
def DigitRun (n : Nat) (l : List Char) : Prop :=
  l.length = n ∧ l.all Char.isDigit = true

/-- A word of the national-id shape the spec describes: three groups of
three digits, each group boundary optionally separated by `.`, then an
optional `-` and two digits. -/
def CpfShape (w : List Char) : Prop :=
  ∃ g1 s1 g2 s2 g3 s3 d2, w = g1 ++ s1 ++ g2 ++ s2 ++ g3 ++ s3 ++ d2 ∧
    DigitRun 3 g1 ∧ Opt '.' s1 ∧ DigitRun 3 g2 ∧ Opt '.' s2 ∧
    DigitRun 3 g3 ∧ Opt '-' s3 ∧ DigitRun 2 d2

/-- A word of the postal-code shape the spec describes: five digits, an
optional `-`, three digits. -/
def CepShape (w : List Char) : Prop :=
  ∃ g1 s1 g2, w = g1 ++ s1 ++ g2 ∧ DigitRun 5 g1 ∧ Opt '-' s1 ∧ DigitRun 3 g2

/-- The character just before position `k` of `s`, where `prev` is the
character just before `s` itself (`none` at the start of the text). -/
def prevCharAt (prev : Option Char) (s : List Char) : Nat → Option Char
  | 0 => prev
  | k + 1 => s.get? k

/-- A match attempt of `re_search body` succeeds at position `k`. -/
def SearchMatchAt (body : List Char → Option (List Char))
    (prev : Option Char) (s : List Char) (k : Nat) : Prop :=
  boundaryBefore (prevCharAt prev s k) = true ∧
  ∃ r, body (s.drop k) = some r ∧ noWordAhead r = true

/-- Occurrence of a `Shape`-shaped word `w` at position `i` of `t`,
delimited by word boundaries, as the regexes (with their `\b` anchors)
demand: the character before position `i`, if any, is not a word
character, and neither is the character following the occurrence. -/
def PatMatchAt (Shape : List Char → Prop) (t : List Char) (i : Nat)
    (w : List Char) : Prop :=
  Shape w ∧
  (i = 0 ∨ ∃ c, t.get? (i - 1) = some c ∧ isWordChar c = false) ∧
  ∃ r, t.drop i = w ++ r ∧ noWordAhead r = true

/-! ## The pipeline (`process_emails` of main.py and its collaborators)

Collaborator behaviour that the pipeline merely observes (whether a
download produced a file, what text a PDF yields, whether a remote call
hits an `HttpError`) is carried as explicit fields of the input data;
remote and local mutable state (label catalog, ledger file, the
`extracted_data` local variable) is threaded explicitly. -/

/-- A Gmail label as returned by `GmailClient.get_labels`
(email_actions.py lines 242-252): an opaque id and a name. -/
structure GLabel where
  id : Nat
  name : String
deriving DecidableEq, Repr

/-- The remote mailbox as seen through the label operations, with an
instrumentation counter of creation calls.  `create_fails` models
whether label creation hits an `HttpError` — `GmailClient.create_label`
then prints and returns `None` (email_actions.py lines 238-240). -/
structure GmailState where
  labels : List GLabel
  next_id : Nat
  create_calls : Nat
  create_fails : Bool
deriving DecidableEq, Repr

/-- `GmailClient.get_labels` (email_actions.py lines 242-252). -/
def get_labels (s : GmailState) : List GLabel := s.labels

/-- `GmailClient.create_label` (email_actions.py lines 214-240): on
success the catalog gains the new label and its fresh id is returned;
on `HttpError`, `None`.  Either way one creation call was issued. -/
def gmail_create_label (label_name : String) (s : GmailState) :
    Option Nat × GmailState :=
  if s.create_fails then
    (none, { s with create_calls := s.create_calls + 1 })
  else
    (some s.next_id,
      { s with labels := s.labels ++ [⟨s.next_id, label_name⟩],
               next_id := s.next_id + 1,
               create_calls := s.create_calls + 1 })

/-- `create_label` of main.py (lines 32-52): compute the canonical
folder name `inbox/...`, scan the existing catalog for an exact name
match and return that label's id if found; only otherwise issue a
creation call. -/
def create_label (type_mail date_str : String) (s : GmailState) :
    Option Nat × GmailState :=
  let folder_name := "inbox/" ++ type_mail ++ "/" ++ date_str
  match (get_labels s).find? (fun l => l.name == folder_name) with
  | some l => (some l.id, s)
  | none => gmail_create_label folder_name s

/-- One attachment of a message (email_actions.py lines 129-136),
together with the collaborator behaviour the pipeline observes for it:
`download_ok` models whether the PDF file exists at the download path
after `GmailClient.download_attachment` ran (main.py line 117; a failed
download is printed and swallowed, email_actions.py lines 167-168);
`pdf_text` models `PDFReader(path).extract_text()` — `none` when the
reader raises (bad suffix or unreadable file, pdf_actions.py lines 7-10
and 21-22), caught by the per-attachment handler. -/
structure Attachment where
  filename : List Char
  mime_type : String
  attachment_id : Option String
  download_ok : Bool
  pdf_text : Option (List Char)
deriving DecidableEq, Repr

/-- A message as produced by `GmailClient.search_emails`
(email_actions.py lines 96-109), restricted to the fields the pipeline
reads (`headers.get` of `from` and `subject`, main.py lines 84-85), plus
the collaborator behaviour of the reply send: `send_fails` models an
`HttpError` in `GmailClient.send_email`, printed and swallowed there
(email_actions.py lines 210-212). -/
structure EmailData where
  id : String
  from_hdr : Option (List Char)
  subject_hdr : Option (List Char)
  attachments : List Attachment
  send_fails : Bool
deriving DecidableEq, Repr

/-- One row appended to the Excel ledger (main.py lines 164-172). -/
structure LedgerRow where
  arquivo : List Char
  cpf : List Char
  cpf_valido : String
  cep : List Char
  cep_valido : String
  erro : String
deriving DecidableEq, Repr

/-- One successfully sent reply (main.py lines 211-216).  The body is
the chosen template file with the date placeholder substituted; it is
recorded here by which template was chosen (`valid` or `rejected`). -/
structure SentEmail where
  to_addr : List Char
  subject : List Char
  template : String
deriving DecidableEq, Repr

/-- The mutable state of one `process_emails` run: the remote mailbox,
the dated ledger file (existence flag, and the rows appended during this
run), the `extracted_data` local variable — unset until the first
successful extraction of the run and never reset between attachments or
messages — and the observable side effects. -/
structure RunState where
  gmail : GmailState
  ledger_created : Bool
  ledger : List LedgerRow
  extracted_data : Option ExtractedFields
  sent : List SentEmail
  moved : List (String × Nat)
  processed_count : Nat
deriving DecidableEq, Repr

/-- Facts fixed for one run: the current date (main.py line 66) and
whether the two reply-template files exist on disk (main.py lines
185-201). -/
structure Env where
  date : String
  valid_template_exists : Bool
  invalid_template_exists : Bool
deriving DecidableEq, Repr

/-- The classification block of main.py lines 142-158: the ledger error
text and the message class, from the current `extracted_data`.  A
matched field is never the empty string, so Python's truthiness test is
`isSome` here. -/
def classify_fields (ed : ExtractedFields) : String × String :=
  if ed.cpf.isNone && ed.cep.isNone then ("CPF e CEP inválidos", "rejected")
  else if ed.cpf.isNone then ("CPF inválido", "rejected")
  else if ed.cep.isNone then ("CEP inválido", "rejected")
  else ("N/A", "valid")

/-- What the inner `try` of the attachment loop (main.py lines 102-127)
observes for one attachment: the extracted text if the attachment id is
present, the download left a file, and the reader succeeded; `none`
otherwise (all those failures are printed and swallowed). -/
def attachment_extracts (a : Attachment) : Option (List Char) :=
  match a.attachment_id with
  | none => none
  | some _ => if a.download_ok then a.pdf_text else none


/-- The row built at main.py lines 142-158 and 164-171 from the current
`extracted_data` and the current attachment's filename. -/
def ledger_row_for (ed : ExtractedFields) (a : Attachment) : LedgerRow :=
  { arquivo := a.filename
    cpf := ed.cpf.getD "N/A".data
    cpf_valido := if ed.cpf.isSome then "Sim" else "Não"
    cep := ed.cep.getD "N/A".data
    cep_valido := if ed.cep.isSome then "Sim" else "Não"
    erro := (classify_fields ed).1 }

/-- One iteration of the attachment loop (main.py lines 101-172): the
inner `try` updates `extracted_data` on a fully successful extraction
and leaves it untouched otherwise; the Excel block (lines 131-172,
inside the loop) then creates the ledger file if absent and appends one
row computed from the *current* `extracted_data`.  Reading
`extracted_data` when it was never assigned in this run raises
`NameError` (line 143), which escapes to the per-message handler:
modelled as `Except.error` carrying the state reached so far (the file
creation of lines 131-139 has already happened).  The inner
`if pdf_attachments:` of line 141 is always true in context — the whole
block sits inside the `if pdf_attachments:` branch of line 94 — so its
`else` (lines 159-161, error text `Nenhum anexo PDF encontrado`) is
unreachable and omitted. -/
def process_attachment (a : Attachment) (st : RunState) :
    Except RunState (RunState × String) :=
  let st1 :=
    match attachment_extracts a with
    | some txt => { st with extracted_data := some (extract_cpf_cep txt) }
    | none => st
  let st2 := { st1 with ledger_created := true }
  match st2.extracted_data with
  | none => .error st2
  | some ed =>
    .ok ({ st2 with ledger := st2.ledger ++ [ledger_row_for ed a] },
      (classify_fields ed).2)

/-- The attachment loop over the (non-empty) list of PDF attachments;
the surviving `type_mail` is that of the last iteration. -/
def process_attachments (a : Attachment) (rest : List Attachment)
    (st : RunState) : Except RunState (RunState × String) :=
  match process_attachment a st with
  | .error st' => .error st'
  | .ok (st', tm) =>
    match rest with
    | [] => .ok (st', tm)
    | b :: rest' => process_attachments b rest' st'

/-- Python `str.strip()` (main.py line 208), over the whitespace class
of the characters the header can contain. -/
def pyStrip (s : List Char) : List Char :=
  ((s.dropWhile Char.isWhitespace).reverse.dropWhile Char.isWhitespace).reverse

/-- The lazy tail of `re.search r'<(.+?)>'` after the group has at least
one character: stop at the first `>`; `.` refuses newlines; if no close
is found the attempt at this start position fails. -/
def lazyToGt (acc : List Char) : List Char → Option (List Char)
  | [] => none
  | c :: rest =>
    if c == '>' then some acc.reverse
    else if c == '\n' then none
    else lazyToGt (c :: acc) rest

/-- A match of `<(.+?)>` starting exactly at the current position: an
opening bracket, then a lazily-shortest non-empty newline-free group up
to the first following `>`. -/
def matchAngleAt : List Char → Option (List Char)
  | '<' :: c :: rest => if c == '\n' then none else lazyToGt [c] rest
  | _ => none

/-- Leftmost search for `<(.+?)>` (main.py line 204). -/
def searchAngle : List Char → Option (List Char)
  | [] => none
  | c :: rest =>
    match matchAngleAt (c :: rest) with
    | some g => some g
    | none => searchAngle rest

/-- Sender-address extraction (main.py lines 204-208): the first
bracketed group when `<...>` occurs, else the whitespace-trimmed raw
header value. -/
def sender_email_of (sender : List Char) : List Char :=
  match searchAngle sender with
  | some g => g
  | none => pyStrip sender

/-- How the processing of one message ends: `completed` reaches the move
(main.py line 224, whose own `HttpError` is printed and swallowed inside
the client, email_actions.py lines 278-279); `errored` is an exception
caught by the per-message handler (lines 225-226); `fatal` is the
folder-creation failure that returns from the whole function (lines
220-222). -/
inductive MsgOutcome where
  | completed
  | errored
  | fatal
deriving DecidableEq, Repr

/-- Steps after the classification branch (main.py lines 183-224):
template choice by `type_mail`, template read (a missing file raises,
caught at the per-message boundary), sender extraction, reply send
(failure swallowed in the client), folder resolution (fatal on `None`),
and the move. -/
def finish_message (env : Env) (msg : EmailData) (subject : List Char)
    (sender : List Char) (type_mail : String) (st : RunState) :
    MsgOutcome × RunState :=
  let template_exists :=
    if type_mail == "valid" then env.valid_template_exists
    else env.invalid_template_exists
  if template_exists then
    let reply_subject := "Re: ".data ++ subject
    let to_addr := sender_email_of sender
    let st3 :=
      if msg.send_fails then st
      else { st with sent := st.sent ++ [⟨to_addr, reply_subject, type_mail⟩] }
    match create_label type_mail env.date st3.gmail with
    | (none, g') => (.fatal, { st3 with gmail := g' })
    | (some fid, g') =>
      (.completed,
        { st3 with gmail := g', moved := st3.moved ++ [(msg.id, fid)] })
  else (.errored, st)

/-- Processing of one message: the body of the outer `for` (main.py
lines 81-226).  The PDF partition (lines 91-92), the attachment loop or
the no-PDF branch (lines 178-180), the processed-count increment (line
181), then the finishing steps. -/
def process_message (env : Env) (msg : EmailData) (st : RunState) :
    MsgOutcome × RunState :=
  let sender := msg.from_hdr.getD "Remetente desconhecido".data
  let subject := msg.subject_hdr.getD "Sem assunto".data
  let pdf_attachments :=
    msg.attachments.filter (fun a => a.mime_type == "application/pdf")
  match pdf_attachments with
  | [] =>
    let st1 := { st with processed_count := st.processed_count + 1 }
    finish_message env msg subject sender "rejected" st1
  | a :: rest =>
    match process_attachments a rest st with
    | .error st' => (.errored, st')
    | .ok (st', tm) =>
      let st1 := { st' with processed_count := st'.processed_count + 1 }
      finish_message env msg subject sender tm st1

/-- The outer message loop: an `errored` message is logged and the loop
continues; a `fatal` outcome returns from `process_emails` at once
(main.py line 222), leaving later messages unprocessed. -/
def process_loop (env : Env) : List EmailData → RunState → RunState
  | [], st => st
  | m :: rest, st =>
    match process_message env m st with
    | (.fatal, st') => st'
    | (.completed, st') => process_loop env rest st'
    | (.errored, st') => process_loop env rest st'

/-- The state a run starts from: `g` is the remote mailbox,
`ledger_exists0` whether the dated Excel file is left over from an
earlier run of the same day. -/
def initState (g : GmailState) (ledger_exists0 : Bool) : RunState :=
  { gmail := g, ledger_created := ledger_exists0, ledger := [],
    extracted_data := none, sent := [], moved := [], processed_count := 0 }

/-- `process_emails` (main.py lines 54-228) applied to a given search
result.  The early return on an empty result (line 72-74) coincides
with the loop doing nothing. -/
def process_emails (env : Env) (g : GmailState) (ledger_exists0 : Bool)
    (emails : List EmailData) : RunState :=
  process_loop env emails (initState g ledger_exists0)

/-- The PDF partition of a message (main.py lines 91-92). -/
def pdfAtts (msg : EmailData) : List Attachment :=
  msg.attachments.filter (fun a => a.mime_type == "application/pdf")

/-- A fully successful download-and-extraction of an attachment. -/
def attSucceeds (a : Attachment) : Bool := (attachment_extracts a).isSome

/-- The evolution of the `extracted_data` variable over a list of
attachments: each fully successful extraction overwrites it wholesale,
failures leave it untouched. -/
def runExtract : List Attachment → Option ExtractedFields → Option ExtractedFields
  | [], e => e
  | a :: rest, e =>
    runExtract rest
      (match attachment_extracts a with
       | some txt => some (extract_cpf_cep txt)
       | none => e)

/-- The extracted text of the last attachment in the list whose
download, file check, and read all succeeded, if any. -/
def lastSuccText : List Attachment → Option (List Char)
  | [] => none
  | a :: rest =>
    match lastSuccText rest with
    | some t => some t
    | none => attachment_extracts a

/-! ### Concrete fixtures used by witnesses and counterexamples -/

def sampleGmail : GmailState := ⟨[⟨0, "INBOX"⟩], 100, 0, false⟩

def sampleEnv : Env := ⟨"2026-10-12", true, true⟩

/-- A PDF attachment whose text carries both a CPF and a CEP. -/
def attBoth : Attachment :=
  ⟨"r.pdf".data, "application/pdf", some "a1", true,
    some "CPF 123.456.789-09 CEP 12345-678".data⟩

/-- A PDF attachment whose text carries neither pattern. -/
def attNoneTxt : Attachment :=
  ⟨"s.pdf".data, "application/pdf", some "a2", true, some "nothing here".data⟩

/-- A PDF attachment whose download leaves no file behind. -/
def attBroken : Attachment :=
  ⟨"t.pdf".data, "application/pdf", some "a3", false, none⟩

/-- A non-PDF attachment. -/
def attPlain : Attachment :=
  ⟨"u.txt".data, "text/plain", some "a4", true, some "x".data⟩

def msgOnePdf : EmailData :=
  ⟨"m1", some "Alice <alice@x.com>".data, some "Relatório Diário".data,
    [attBoth], false⟩

def msgTwoPdfs : EmailData := ⟨"m2", none, none, [attBoth, attNoneTxt], false⟩

def msgNoPdf : EmailData := ⟨"m0", none, none, [attPlain], false⟩

def msgBroken : EmailData := ⟨"mf", none, none, [attBroken], false⟩

/-- An environment whose `rejected` reply template file is missing. -/
def sampleEnvNoInv : Env := ⟨"2026-10-12", true, false⟩

/-- State component of an attachment-loop result. -/
def okState : Except RunState (RunState × String) → RunState
  | .ok (s, _) => s
  | .error s => s

/-- Surviving `type_mail` of an attachment-loop result. -/
def okTm : Except RunState (RunState × String) → String
  | .ok (_, t) => t
  | .error _ => ""

theorem matchDigits_append {n : Nat} {d : List Char} (r : List Char)
    (h : DigitRun n d) : matchDigits n (d ++ r) = some r := by
  induction d generalizing n with
  | nil =>
    obtain ⟨h1, _⟩ := h
    subst h1
    simp [matchDigits]
  | cons c d ih =>
    obtain ⟨h1, h2⟩ := h
    subst h1
    simp only [List.all_cons, Bool.and_eq_true] at h2
    simp [matchDigits, h2.1, ih ⟨rfl, h2.2⟩]

theorem matchDigits_spec {n : Nat} {s r : List Char}
    (h : matchDigits n s = some r) : ∃ d, s = d ++ r ∧ DigitRun n d := by
  induction n generalizing s with
  | zero =>
    simp only [matchDigits, Option.some.injEq] at h
    exact ⟨[], by simp [h], rfl, rfl⟩
  | succ n ih =>
    cases s with
    | nil => simp [matchDigits] at h
    | cons c s =>
      by_cases hc : c.isDigit
      · simp only [matchDigits, hc, if_true] at h
        obtain ⟨d, rfl, hd1, hd2⟩ := ih h
        exact ⟨c :: d, rfl, by simp [hd1], by simp [hc, hd2]⟩
      · simp [matchDigits, hc] at h

theorem matchOpt_cons (c : Char) (s : List Char) : matchOpt c (c :: s) = s := by
  simp [matchOpt]

theorem matchOpt_decomp (c : Char) (s : List Char) :
    ∃ o, Opt c o ∧ s = o ++ matchOpt c s := by
  cases s with
  | nil => exact ⟨[], Or.inl rfl, rfl⟩
  | cons x s =>
    by_cases hx : x = c
    · subst hx
      exact ⟨[x], Or.inr rfl, by simp [matchOpt]⟩
    · exact ⟨[], Or.inl rfl, by simp [matchOpt, hx]⟩

/-- With a non-digit optional character and a digit group following, the
optional consumes exactly its occurrence. -/
theorem matchOpt_opt_append {c : Char} {o g t : List Char} {n : Nat}
    (ho : Opt c o) (hc : c.isDigit = false) (hg : DigitRun (n + 1) g) :
    matchOpt c (o ++ (g ++ t)) = g ++ t := by
  rcases ho with rfl | rfl
  · obtain ⟨h1, h2⟩ := hg
    cases g with
    | nil => simp at h1
    | cons a g' =>
      simp only [List.all_cons, Bool.and_eq_true] at h2
      have ha : a ≠ c := by
        intro he
        rw [he, hc] at h2
        exact absurd h2.1 (by simp)
      simp [matchOpt, ha]
  · simp [matchOpt]

theorem cpf_body_sound {s r : List Char} (h : cpf_body s = some r) :
    ∃ w, s = w ++ r ∧ CpfShape w := by
  unfold cpf_body at h
  obtain ⟨s1, h1, h⟩ := Option.bind_eq_some.mp h
  obtain ⟨s2, h2, h⟩ := Option.bind_eq_some.mp h
  obtain ⟨s3, h3, h4⟩ := Option.bind_eq_some.mp h
  obtain ⟨g1, e1, hg1⟩ := matchDigits_spec h1
  obtain ⟨o1, ho1, e1'⟩ := matchOpt_decomp '.' s1
  obtain ⟨g2, e2, hg2⟩ := matchDigits_spec h2
  obtain ⟨o2, ho2, e2'⟩ := matchOpt_decomp '.' s2
  obtain ⟨g3, e3, hg3⟩ := matchDigits_spec h3
  obtain ⟨o3, ho3, e3'⟩ := matchOpt_decomp '-' s3
  obtain ⟨d2, e4, hd2⟩ := matchDigits_spec h4
  refine ⟨g1 ++ o1 ++ g2 ++ o2 ++ g3 ++ o3 ++ d2, ?_,
    g1, o1, g2, o2, g3, o3, d2, rfl, hg1, ho1, hg2, ho2, hg3, ho3, hd2⟩
  simp only [List.append_assoc]
  rw [e1, e1', e2, e2', e3, e3', e4]

theorem cpf_body_complete {w : List Char} (h : CpfShape w) (r : List Char) :
    cpf_body (w ++ r) = some r := by
  obtain ⟨g1, s1, g2, s2, g3, s3, d2, rfl, hg1, hs1, hg2, hs2, hg3, hs3, hd2⟩ := h
  unfold cpf_body
  simp only [List.append_assoc]
  rw [matchDigits_append _ hg1, Option.some_bind,
    matchOpt_opt_append hs1 (by decide) hg2, matchDigits_append _ hg2,
    Option.some_bind, matchOpt_opt_append hs2 (by decide) hg3,
    matchDigits_append _ hg3, Option.some_bind,
    matchOpt_opt_append hs3 (by decide) hd2, matchDigits_append _ hd2]

theorem cep_body_sound {s r : List Char} (h : cep_body s = some r) :
    ∃ w, s = w ++ r ∧ CepShape w := by
  unfold cep_body at h
  obtain ⟨s1, h1, h2⟩ := Option.bind_eq_some.mp h
  obtain ⟨g1, rfl, hg1⟩ := matchDigits_spec h1
  obtain ⟨o1, ho1, e1⟩ := matchOpt_decomp '-' s1
  rw [e1] at *
  obtain ⟨g2, e2, hg2⟩ := matchDigits_spec h2
  refine ⟨g1 ++ o1 ++ g2, ?_, g1, o1, g2, rfl, hg1, ho1, hg2⟩
  simp only [List.append_assoc]
  rw [← e2]

theorem cep_body_complete {w : List Char} (h : CepShape w) (r : List Char) :
    cep_body (w ++ r) = some r := by
  obtain ⟨g1, s1, g2, rfl, hg1, hs1, hg2⟩ := h
  unfold cep_body
  simp only [List.append_assoc]
  rw [matchDigits_append _ hg1, Option.some_bind,
    matchOpt_opt_append hs1 (by decide) hg2, matchDigits_append _ hg2]

theorem cpfShape_ne_nil {w : List Char} (h : CpfShape w) : w ≠ [] := by
  obtain ⟨g1, s1, g2, s2, g3, s3, d2, rfl, hg1, -⟩ := h
  obtain ⟨h1, -⟩ := hg1
  cases g1 with
  | nil => simp at h1
  | cons a g1 => simp

theorem cepShape_ne_nil {w : List Char} (h : CepShape w) : w ≠ [] := by
  obtain ⟨g1, s1, g2, rfl, hg1, -⟩ := h
  obtain ⟨h1, -⟩ := hg1
  cases g1 with
  | nil => simp at h1
  | cons a g1 => simp

theorem cpf_body_nil : cpf_body [] = none := by decide

theorem cep_body_nil : cep_body [] = none := by decide

/-! ### Leftmost-search characterisation -/

theorem searchMatchAt_succ (body : List Char → Option (List Char))
    (prev : Option Char) (c : Char) (s : List Char) (k : Nat) :
    SearchMatchAt body prev (c :: s) (k + 1) ↔ SearchMatchAt body (some c) s k := by
  cases k with
  | zero => simp [SearchMatchAt, prevCharAt]
  | succ k => simp [SearchMatchAt, prevCharAt]

theorem re_search_eq_none_iff (body : List Char → Option (List Char))
    (hnil : body [] = none) (prev : Option Char) (s : List Char) :
    re_search body prev s = none ↔ ∀ k, ¬ SearchMatchAt body prev s k := by
  induction s generalizing prev with
  | nil =>
    simp only [re_search, true_iff]
    intro k hk
    obtain ⟨-, r, hr, -⟩ := hk
    rw [List.drop_nil, hnil] at hr
    exact Option.noConfusion hr
  | cons c rest ih =>
    have h0 : SearchMatchAt body prev (c :: rest) 0 ↔
        boundaryBefore prev = true ∧
        ∃ r, body (c :: rest) = some r ∧ noWordAhead r = true := by
      simp [SearchMatchAt, prevCharAt]
    by_cases hb : boundaryBefore prev = true
    · cases hbody : body (c :: rest) with
      | none =>
        have hstep : re_search body prev (c :: rest) = re_search body (some c) rest := by
          simp [re_search, hb, hbody]
        rw [hstep, ih (some c)]
        constructor
        · intro hall k
          cases k with
          | zero =>
            rw [h0]
            rintro ⟨-, r, hr, -⟩
            rw [hbody] at hr
            exact Option.noConfusion hr
          | succ k =>
            rw [searchMatchAt_succ]
            exact hall k
        · intro hall k
          have := hall (k + 1)
          rwa [searchMatchAt_succ] at this
      | some r =>
        by_cases hw : noWordAhead r = true
        · have hstep : re_search body prev (c :: rest) =
              some ((c :: rest).take ((c :: rest).length - r.length)) := by
            simp [re_search, hb, hbody, hw]
          rw [hstep]
          constructor
          · exact fun hc => Option.noConfusion hc
          · exact fun hall => absurd (h0.mpr ⟨hb, r, hbody, hw⟩) (hall 0)
        · have hstep : re_search body prev (c :: rest) = re_search body (some c) rest := by
            simp [re_search, hb, hbody, hw]
          rw [hstep, ih (some c)]
          constructor
          · intro hall k
            cases k with
            | zero =>
              rw [h0]
              rintro ⟨-, r', hr', hw'⟩
              rw [hbody] at hr'
              cases hr'
              exact hw hw'
            | succ k =>
              rw [searchMatchAt_succ]
              exact hall k
          · intro hall k
            have := hall (k + 1)
            rwa [searchMatchAt_succ] at this
    · have hstep : re_search body prev (c :: rest) = re_search body (some c) rest := by
        simp [re_search, hb]
      rw [hstep, ih (some c)]
      constructor
      · intro hall k
        cases k with
        | zero =>
          rw [h0]
          rintro ⟨hb', -⟩
          exact hb hb'
        | succ k =>
          rw [searchMatchAt_succ]
          exact hall k
      · intro hall k
        have := hall (k + 1)
        rwa [searchMatchAt_succ] at this

theorem re_search_eq_some_spec (body : List Char → Option (List Char))
    {prev : Option Char} {s m : List Char}
    (h : re_search body prev s = some m) :
    ∃ k r, body (s.drop k) = some r ∧ noWordAhead r = true ∧
      boundaryBefore (prevCharAt prev s k) = true ∧
      m = (s.drop k).take ((s.drop k).length - r.length) ∧
      ∀ j, j < k → ¬ SearchMatchAt body prev s j := by
  induction s generalizing prev m with
  | nil => exact Option.noConfusion h
  | cons c rest ih =>
    have h0 : SearchMatchAt body prev (c :: rest) 0 ↔
        boundaryBefore prev = true ∧
        ∃ r, body (c :: rest) = some r ∧ noWordAhead r = true := by
      simp [SearchMatchAt, prevCharAt]
    have lift : ∀ k₀ r₀, body (rest.drop k₀) = some r₀ →
        noWordAhead r₀ = true →
        boundaryBefore (prevCharAt (some c) rest k₀) = true →
        m = (rest.drop k₀).take ((rest.drop k₀).length - r₀.length) →
        (∀ j, j < k₀ → ¬ SearchMatchAt body (some c) rest j) →
        ¬ SearchMatchAt body prev (c :: rest) 0 →
        ∃ k r, body ((c :: rest).drop k) = some r ∧ noWordAhead r = true ∧
          boundaryBefore (prevCharAt prev (c :: rest) k) = true ∧
          m = ((c :: rest).drop k).take (((c :: rest).drop k).length - r.length) ∧
          ∀ j, j < k → ¬ SearchMatchAt body prev (c :: rest) j := by
      intro k₀ r₀ h1 h2 h3 h4 h5 h6
      refine ⟨k₀ + 1, r₀, by simpa using h1, h2, ?_, by simpa using h4, ?_⟩
      · cases k₀ with
        | zero => simpa [prevCharAt] using h3
        | succ k₀ => simpa [prevCharAt] using h3
      · intro j hj
        cases j with
        | zero => exact h6
        | succ j =>
          rw [searchMatchAt_succ]
          exact h5 j (Nat.lt_of_succ_lt_succ hj)
    by_cases hb : boundaryBefore prev = true
    · cases hbody : body (c :: rest) with
      | none =>
        have hstep : re_search body prev (c :: rest) = re_search body (some c) rest := by
          simp [re_search, hb, hbody]
        rw [hstep] at h
        obtain ⟨k₀, r₀, h1, h2, h3, h4, h5⟩ := ih h
        refine lift k₀ r₀ h1 h2 h3 h4 h5 ?_
        rw [h0]
        rintro ⟨-, r', hr', -⟩
        rw [hbody] at hr'
        exact Option.noConfusion hr'
      | some r =>
        by_cases hw : noWordAhead r = true
        · have hstep : re_search body prev (c :: rest) =
              some ((c :: rest).take ((c :: rest).length - r.length)) := by
            simp [re_search, hb, hbody, hw]
          rw [hstep, Option.some.injEq] at h
          exact ⟨0, r, hbody, hw, by simpa [prevCharAt] using hb, by simpa using h.symm,
            fun j hj => absurd hj (Nat.not_lt_zero j)⟩
        · have hstep : re_search body prev (c :: rest) = re_search body (some c) rest := by
            simp [re_search, hb, hbody, hw]
          rw [hstep] at h
          obtain ⟨k₀, r₀, h1, h2, h3, h4, h5⟩ := ih h
          refine lift k₀ r₀ h1 h2 h3 h4 h5 ?_
          rw [h0]
          rintro ⟨-, r', hr', hw'⟩
          rw [hbody] at hr'
          cases hr'
          exact hw hw'
    · have hstep : re_search body prev (c :: rest) = re_search body (some c) rest := by
        simp [re_search, hb]
      rw [hstep] at h
      obtain ⟨k₀, r₀, h1, h2, h3, h4, h5⟩ := ih h
      refine lift k₀ r₀ h1 h2 h3 h4 h5 ?_
      rw [h0]
      rintro ⟨hb', -⟩
      exact hb hb'

theorem take_append_sub (w r : List Char) :
    (w ++ r).take ((w ++ r).length - r.length) = w := by
  rw [List.length_append, Nat.add_sub_cancel, List.take_left]

/-- Leftmost-search specification: `re_search body none t` is `none` iff
no boundary-delimited occurrence of the shape exists in `t`, and
otherwise returns the occurrence at the least position. -/
theorem re_search_pat_spec (body : List Char → Option (List Char))
    (Shape : List Char → Prop) (hnil : body [] = none)
    (hsound : ∀ {s r : List Char}, body s = some r → ∃ w, s = w ++ r ∧ Shape w)
    (hcomplete : ∀ {w : List Char} (r : List Char), Shape w → body (w ++ r) = some r)
    (hne : ∀ {w : List Char}, Shape w → w ≠ [])
    (t : List Char) :
    (re_search body none t = none ↔ ∀ i w, ¬ PatMatchAt Shape t i w) ∧
    (∀ m, re_search body none t = some m →
      ∃ i, PatMatchAt Shape t i m ∧ ∀ j w, PatMatchAt Shape t j w → i ≤ j) := by
  have bridgeB : ∀ {j : Nat} {w : List Char}, PatMatchAt Shape t j w →
      SearchMatchAt body none t j := by
    rintro j w ⟨hs, hbnd, r, hdrop, hwa⟩
    refine ⟨?_, r, by rw [hdrop]; exact hcomplete r hs, hwa⟩
    cases j with
    | zero => rfl
    | succ j =>
      rcases hbnd with hj | ⟨c, hc, hcw⟩
      · exact Nat.noConfusion hj
      · have hgj : t[j]? = some c := by
          have := hc
          simpa [List.get?_eq_getElem?] using this
        simp [prevCharAt, List.get?_eq_getElem?, hgj, boundaryBefore, hcw]
  have bridgeA : ∀ {k : Nat}, SearchMatchAt body none t k →
      ∃ w, PatMatchAt Shape t k w := by
    rintro k ⟨hb, r, hr, hwa⟩
    obtain ⟨w, hwr, hs⟩ := hsound hr
    refine ⟨w, hs, ?_, r, hwr, hwa⟩
    cases k with
    | zero => exact Or.inl rfl
    | succ k =>
      refine Or.inr ?_
      cases hget : t.get? k with
      | none =>
        exfalso
        have hlen : t.length ≤ k := List.get?_eq_none.mp hget
        have hdrop : t.drop (k + 1) = [] := List.drop_eq_nil_of_le (by omega)
        rw [hdrop] at hwr
        obtain ⟨hw0, -⟩ := List.append_eq_nil.mp hwr.symm
        exact hne hs hw0
      | some c =>
        have hbc : boundaryBefore (some c) = true := by
          have : prevCharAt none t (k + 1) = t.get? k := rfl
          rw [this, hget] at hb
          exact hb
        refine ⟨c, by simpa using hget, ?_⟩
        simpa [boundaryBefore, Bool.not_eq_true'] using hbc
  constructor
  · rw [re_search_eq_none_iff body hnil]
    constructor
    · intro hall i w hp
      exact hall i (bridgeB hp)
    · intro hall k hk
      obtain ⟨w, hw⟩ := bridgeA hk
      exact hall k w hw
  · intro m hm
    obtain ⟨k, r, h1, h2, h3, h4, h5⟩ := re_search_eq_some_spec body hm
    obtain ⟨w, hwr, hs⟩ := hsound h1
    have hmw : m = w := by rw [h4, hwr, take_append_sub]
    subst hmw
    have hpat : PatMatchAt Shape t k m := by
      obtain ⟨w', hw'⟩ := bridgeA ⟨h3, r, h1, h2⟩
      obtain ⟨hs', hbnd', r', hdrop', hwa'⟩ := hw'
      exact ⟨hs, hbnd', r, hwr, h2⟩
    refine ⟨k, hpat, ?_⟩
    intro j w' hp
    by_contra hlt
    exact h5 j (by omega) (bridgeB hp)

/-! ### Attachment-loop lemmas -/

theorem process_attachment_error {a : Attachment} {st st' : RunState}
    (h : process_attachment a st = .error st') :
    attachment_extracts a = none ∧ st.extracted_data = none ∧
    st' = { st with ledger_created := true } := by
  cases hx : attachment_extracts a with
  | some txt => simp [process_attachment, hx] at h
  | none =>
    cases he : st.extracted_data with
    | some ed => simp [process_attachment, hx, he] at h
    | none =>
      simp only [process_attachment, hx, he, Except.error.injEq] at h
      exact ⟨rfl, rfl, h.symm⟩

theorem process_attachment_ok {a : Attachment} {st st' : RunState} {tm : String}
    (h : process_attachment a st = .ok (st', tm)) :
    ∃ ed, tm = (classify_fields ed).2 ∧
      st' = { st with
        extracted_data := some ed
        ledger_created := true
        ledger := st.ledger ++ [ledger_row_for ed a] } ∧
      (match attachment_extracts a with
       | some txt => some (extract_cpf_cep txt)
       | none => st.extracted_data) = some ed := by
  cases hx : attachment_extracts a with
  | some txt =>
    simp only [process_attachment, hx, Except.ok.injEq, Prod.mk.injEq] at h
    exact ⟨extract_cpf_cep txt, h.2.symm, h.1.symm, rfl⟩
  | none =>
    cases he : st.extracted_data with
    | none => simp [process_attachment, hx, he] at h
    | some ed =>
      simp only [process_attachment, hx, he, Except.ok.injEq, Prod.mk.injEq] at h
      refine ⟨ed, h.2.symm, ?_, rfl⟩
      rw [← h.1]

theorem process_attachment_ok_of_some {a : Attachment} {st : RunState}
    {ed0 : ExtractedFields} (h : st.extracted_data = some ed0) :
    ∃ st' tm, process_attachment a st = .ok (st', tm) := by
  cases hx : attachment_extracts a with
  | some txt =>
    refine ⟨{ st with
      extracted_data := some (extract_cpf_cep txt)
      ledger_created := true
      ledger := st.ledger ++ [ledger_row_for (extract_cpf_cep txt) a] },
      (classify_fields (extract_cpf_cep txt)).2, ?_⟩
    simp [process_attachment, hx]
  | none =>
    refine ⟨{ st with
      extracted_data := some ed0
      ledger_created := true
      ledger := st.ledger ++ [ledger_row_for ed0 a] },
      (classify_fields ed0).2, ?_⟩
    simp [process_attachment, hx, h]

theorem process_attachments_ok {rest : List Attachment} {a : Attachment}
    {st stA : RunState} {tm : String}
    (h : process_attachments a rest st = .ok (stA, tm)) :
    ∃ ed b, stA.extracted_data = some ed ∧ tm = (classify_fields ed).2 ∧
      stA.extracted_data = runExtract (a :: rest) st.extracted_data ∧
      stA.ledger.length = st.ledger.length + (rest.length + 1) ∧
      (a :: rest).getLast? = some b ∧
      stA.ledger.getLast? = some (ledger_row_for ed b) ∧
      stA.moved = st.moved ∧ stA.sent = st.sent ∧ stA.gmail = st.gmail ∧
      stA.processed_count = st.processed_count ∧
      stA.ledger_created = true := by
  induction rest generalizing a st with
  | nil =>
    unfold process_attachments at h
    cases h1 : process_attachment a st with
    | error st1 => rw [h1] at h; exact Except.noConfusion h
    | ok p =>
      rw [h1] at h
      obtain ⟨st1, tm1⟩ := p
      simp only [Except.ok.injEq, Prod.mk.injEq] at h
      obtain ⟨rfl, rfl⟩ := h
      obtain ⟨ed, htm, hst, hext⟩ := process_attachment_ok h1
      subst hst
      refine ⟨ed, a, rfl, htm, ?_, by simp, rfl, ?_, rfl, rfl, rfl, rfl, rfl⟩
      · simp [runExtract, hext]
      · simp [List.getLast?_concat]
  | cons b rest' ih =>
    unfold process_attachments at h
    cases h1 : process_attachment a st with
    | error st1 => rw [h1] at h; exact Except.noConfusion h
    | ok p =>
      rw [h1] at h
      obtain ⟨st1, tm1⟩ := p
      simp only at h
      obtain ⟨ed1, htm1, hst1, hext1⟩ := process_attachment_ok h1
      obtain ⟨ed, c, e1, e2, e3, e4, e5, e6, e7, e8, e9, e10, e11⟩ := ih h
      subst hst1
      refine ⟨ed, c, e1, e2, ?_, ?_, ?_, e6, by simpa using e7, by simpa using e8,
        by simpa using e9, by simpa using e10, e11⟩
      · rw [e3]
        simp only [runExtract, hext1]
      · simp only [List.length_append, List.length_cons, List.length_nil] at e4 ⊢
        omega
      · rw [List.getLast?_cons_cons]
        exact e5

theorem lastSuccText_eq_none_of_fail {l : List Attachment}
    (hf : ∀ b ∈ l, attSucceeds b = false) : lastSuccText l = none := by
  induction l with
  | nil => rfl
  | cons a rest ih =>
    have ha : attachment_extracts a = none := by
      have h1 := hf a (by simp)
      cases hA : attachment_extracts a with
      | none => rfl
      | some t => rw [attSucceeds, hA] at h1; exact Bool.noConfusion h1
    have hrest := ih (fun b hb => hf b (by simp [hb]))
    simp [lastSuccText, hrest, ha]

theorem runExtract_of_lastSuccText_none {l : List Attachment}
    (h : lastSuccText l = none) (e : Option ExtractedFields) :
    runExtract l e = e := by
  induction l generalizing e with
  | nil => rfl
  | cons a rest ih =>
    unfold lastSuccText at h
    cases hr : lastSuccText rest with
    | some t => simp [hr] at h
    | none =>
      simp only [hr] at h
      simp only [runExtract, h]
      exact ih hr e

theorem runExtract_lastSucc {l : List Attachment} {txt : List Char}
    (h : lastSuccText l = some txt) (e : Option ExtractedFields) :
    runExtract l e = some (extract_cpf_cep txt) := by
  induction l generalizing e with
  | nil => exact Option.noConfusion h
  | cons a rest ih =>
    unfold lastSuccText at h
    cases hr : lastSuccText rest with
    | some t =>
      simp only [hr, Option.some.injEq] at h
      subst h
      simp only [runExtract]
      exact ih hr _
    | none =>
      simp only [hr] at h
      simp only [runExtract, h]
      exact runExtract_of_lastSuccText_none hr _

theorem process_attachments_ok_of_some {rest : List Attachment} {a : Attachment}
    {st : RunState} {ed0 : ExtractedFields} (h : st.extracted_data = some ed0) :
    ∃ stA tm, process_attachments a rest st = .ok (stA, tm) := by
  induction rest generalizing a st ed0 with
  | nil =>
    obtain ⟨st', tm, h1⟩ := @process_attachment_ok_of_some a _ _ h
    exact ⟨st', tm, by simp [process_attachments, h1]⟩
  | cons b rest' ih =>
    obtain ⟨st', tm, h1⟩ := @process_attachment_ok_of_some a _ _ h
    obtain ⟨ed1, -, hst, -⟩ := process_attachment_ok h1
    have hsome : st'.extracted_data = some ed1 := by rw [hst]
    obtain ⟨stA, tmA, h2⟩ := @ih b _ _ hsome
    exact ⟨stA, tmA, by simp [process_attachments, h1, h2]⟩

theorem process_attachments_error {rest : List Attachment} {a : Attachment}
    {st st' : RunState}
    (h : process_attachments a rest st = .error st') :
    attachment_extracts a = none ∧ st.extracted_data = none ∧
    st' = { st with ledger_created := true } := by
  unfold process_attachments at h
  cases h1 : process_attachment a st with
  | error st1 =>
    rw [h1] at h
    obtain ⟨hx, he, hst⟩ := process_attachment_error h1
    simp only [Except.error.injEq] at h
    exact ⟨hx, he, h ▸ hst⟩
  | ok p =>
    rw [h1] at h
    obtain ⟨st1, tm1⟩ := p
    simp only at h
    cases rest with
    | nil => exact Except.noConfusion h
    | cons b rest' =>
      simp only at h
      obtain ⟨ed1, -, hst1, -⟩ := process_attachment_ok h1
      have hsome : st1.extracted_data = some ed1 := by rw [hst1]
      obtain ⟨stA, tmA, h2⟩ :=
        @process_attachments_ok_of_some rest' b _ _ hsome
      rw [h2] at h
      exact Except.noConfusion h

/-! ### Folder-router and finishing-step lemmas -/

theorem create_label_none {tm d : String} {s g' : GmailState}
    (h : create_label tm d s = (none, g')) :
    s.create_fails = true ∧
    g' = { s with create_calls := s.create_calls + 1 } := by
  simp only [create_label, get_labels] at h
  split at h
  · simp at h
  · simp only [gmail_create_label] at h
    by_cases hc : s.create_fails = true
    · rw [if_pos hc] at h
      simp only [Prod.mk.injEq] at h
      exact ⟨hc, h.2.symm⟩
    · simp [hc] at h

theorem create_label_preserves_fails (tm d : String) (s : GmailState) :
    (create_label tm d s).2.create_fails = s.create_fails := by
  simp only [create_label, get_labels, gmail_create_label]
  split
  · rfl
  · by_cases hc : s.create_fails = true <;> simp [hc]

/-- Definitional unfolding of `finish_message` with the `let`s expanded. -/
theorem finish_message_eq (env : Env) (msg : EmailData)
    (subject sender : List Char) (tm : String) (st : RunState) :
    finish_message env msg subject sender tm st =
      if (if tm == "valid" then env.valid_template_exists
          else env.invalid_template_exists) then
        (match create_label tm env.date
            ((if msg.send_fails then st
              else { st with sent := st.sent ++
                [⟨sender_email_of sender, "Re: ".data ++ subject, tm⟩] }).gmail) with
         | (none, g') =>
           (.fatal,
             { (if msg.send_fails then st
                else { st with sent := st.sent ++
                  [⟨sender_email_of sender, "Re: ".data ++ subject, tm⟩] }) with
               gmail := g' })
         | (some fid, g') =>
           (.completed,
             { (if msg.send_fails then st
                else { st with sent := st.sent ++
                  [⟨sender_email_of sender, "Re: ".data ++ subject, tm⟩] }) with
               gmail := g'
               moved := (if msg.send_fails then st
                 else { st with sent := st.sent ++
                   [⟨sender_email_of sender, "Re: ".data ++ subject, tm⟩] }).moved
                 ++ [(msg.id, fid)] }))
      else (.errored, st) := rfl

theorem finish_message_state (env : Env) (msg : EmailData)
    (subject sender : List Char) (tm : String) (st : RunState) :
    (finish_message env msg subject sender tm st).2.ledger = st.ledger ∧
    (finish_message env msg subject sender tm st).2.ledger_created = st.ledger_created ∧
    (finish_message env msg subject sender tm st).2.extracted_data = st.extracted_data ∧
    (finish_message env msg subject sender tm st).2.processed_count = st.processed_count ∧
    (finish_message env msg subject sender tm st).2.gmail.create_fails = st.gmail.create_fails := by
  rw [finish_message_eq]
  by_cases hb : (if tm == "valid" then env.valid_template_exists
      else env.invalid_template_exists) = true
  · rw [hb]
    by_cases hs : msg.send_fails = true
    · rcases hcl : create_label tm env.date st.gmail with ⟨fid, g'⟩
      have hpf := create_label_preserves_fails tm env.date st.gmail
      rw [hcl] at hpf
      simp only at hpf
      cases fid <;> simp [hs, hcl, hpf]
    · rcases hcl : create_label tm env.date st.gmail with ⟨fid, g'⟩
      have hpf := create_label_preserves_fails tm env.date st.gmail
      rw [hcl] at hpf
      simp only at hpf
      cases fid <;> simp [hs, hcl, hpf]
  · have hb' : (if tm == "valid" then env.valid_template_exists
        else env.invalid_template_exists) = false := by
      revert hb
      cases (if tm == "valid" then env.valid_template_exists
        else env.invalid_template_exists) <;> simp
    rw [hb']
    simp

theorem finish_message_moved (env : Env) (msg : EmailData)
    (subject sender : List Char) (tm : String) (st : RunState) :
    ((finish_message env msg subject sender tm st).1 = .completed →
      ∃ fid, (finish_message env msg subject sender tm st).2.moved =
        st.moved ++ [(msg.id, fid)]) ∧
    ((finish_message env msg subject sender tm st).1 ≠ .completed →
      (finish_message env msg subject sender tm st).2.moved = st.moved) := by
  rw [finish_message_eq]
  by_cases hb : (if tm == "valid" then env.valid_template_exists
      else env.invalid_template_exists) = true
  · rw [hb]
    by_cases hs : msg.send_fails = true
    · rcases hcl : create_label tm env.date st.gmail with ⟨fid, g'⟩
      cases fid <;> simp [hs, hcl]
    · rcases hcl : create_label tm env.date st.gmail with ⟨fid, g'⟩
      cases fid <;> simp [hs, hcl]
  · have hb' : (if tm == "valid" then env.valid_template_exists
        else env.invalid_template_exists) = false := by
      revert hb
      cases (if tm == "valid" then env.valid_template_exists
        else env.invalid_template_exists) <;> simp
    rw [hb']
    simp

theorem finish_message_fatal (env : Env) (msg : EmailData)
    (subject sender : List Char) (tm : String) (st : RunState)
    (h : (finish_message env msg subject sender tm st).1 = .fatal) :
    st.gmail.create_fails = true ∧
    (finish_message env msg subject sender tm st).2.gmail.create_calls =
      st.gmail.create_calls + 1 := by
  rw [finish_message_eq] at h ⊢
  by_cases hb : (if tm == "valid" then env.valid_template_exists
      else env.invalid_template_exists) = true
  · rw [hb] at h ⊢
    by_cases hs : msg.send_fails = true
    · rcases hcl : create_label tm env.date st.gmail with ⟨fid, g'⟩
      cases fid with
      | none =>
        obtain ⟨hcf, hg'⟩ := create_label_none hcl
        subst hg'
        simp [hs, hcl, hcf]
      | some f => simp [hs, hcl] at h
    · rcases hcl : create_label tm env.date st.gmail with ⟨fid, g'⟩
      cases fid with
      | none =>
        obtain ⟨hcf, hg'⟩ := create_label_none hcl
        subst hg'
        simp [hs, hcl, hcf]
      | some f => simp [hs, hcl] at h
  · have hb' : (if tm == "valid" then env.valid_template_exists
        else env.invalid_template_exists) = false := by
      revert hb
      cases (if tm == "valid" then env.valid_template_exists
        else env.invalid_template_exists) <;> simp
    rw [hb'] at h
    simp at h

theorem finish_message_errored (env : Env) (msg : EmailData)
    (subject sender : List Char) (tm : String) (st : RunState)
    (h : (finish_message env msg subject sender tm st).1 = .errored) :
    finish_message env msg subject sender tm st = (.errored, st) ∧
    (if tm == "valid" then env.valid_template_exists
     else env.invalid_template_exists) = false := by
  rw [finish_message_eq] at h ⊢
  by_cases hb : (if tm == "valid" then env.valid_template_exists
      else env.invalid_template_exists) = true
  · rw [hb] at h
    by_cases hs : msg.send_fails = true
    · rcases hcl : create_label tm env.date st.gmail with ⟨fid, g'⟩
      cases fid <;> simp [hs, hcl] at h
    · rcases hcl : create_label tm env.date st.gmail with ⟨fid, g'⟩
      cases fid <;> simp [hs, hcl] at h
  · have hb' : (if tm == "valid" then env.valid_template_exists
        else env.invalid_template_exists) = false := by
      revert hb
      cases (if tm == "valid" then env.valid_template_exists
        else env.invalid_template_exists) <;> simp
    rw [hb']
    simp

theorem finish_message_errored_of_template (env : Env) (msg : EmailData)
    (subject sender : List Char) (tm : String) (st : RunState)
    (h : (if tm == "valid" then env.valid_template_exists
      else env.invalid_template_exists) = false) :
    finish_message env msg subject sender tm st = (.errored, st) := by
  rw [finish_message_eq, h]
  simp

/-- Unfolding of `process_message` through the `pdfAtts` abbreviation. -/
theorem process_message_def (env : Env) (msg : EmailData) (st : RunState) :
    process_message env msg st =
      match pdfAtts msg with
      | [] =>
        finish_message env msg (msg.subject_hdr.getD "Sem assunto".data)
          (msg.from_hdr.getD "Remetente desconhecido".data) "rejected"
          { st with processed_count := st.processed_count + 1 }
      | a :: rest =>
        match process_attachments a rest st with
        | .error st' => (.errored, st')
        | .ok (st', tm) =>
          finish_message env msg (msg.subject_hdr.getD "Sem assunto".data)
            (msg.from_hdr.getD "Remetente desconhecido".data) tm
            { st' with processed_count := st'.processed_count + 1 } := rfl

theorem process_loop_cons_errored {env : Env} {m : EmailData}
    {rest : List EmailData} {st st' : RunState}
    (h : process_message env m st = (.errored, st')) :
    process_loop env (m :: rest) st = process_loop env rest st' := by
  simp [process_loop, h]

theorem process_loop_cons_completed {env : Env} {m : EmailData}
    {rest : List EmailData} {st st' : RunState}
    (h : process_message env m st = (.completed, st')) :
    process_loop env (m :: rest) st = process_loop env rest st' := by
  simp [process_loop, h]

theorem process_loop_cons_fatal {env : Env} {m : EmailData}
    {rest : List EmailData} {st st' : RunState}
    (h : process_message env m st = (.fatal, st')) :
    process_loop env (m :: rest) st = st' := by
  simp [process_loop, h]

theorem process_message_moved_mono (env : Env) (msg : EmailData) (st : RunState) :
    ∃ l, (process_message env msg st).2.moved = st.moved ++ l := by
  rw [process_message_def]
  cases hp : pdfAtts msg with
  | nil =>
    have hfm := finish_message_moved env msg (msg.subject_hdr.getD "Sem assunto".data)
        (msg.from_hdr.getD "Remetente desconhecido".data) "rejected"
        { st with processed_count := st.processed_count + 1 }
    by_cases hc : (finish_message env msg (msg.subject_hdr.getD "Sem assunto".data)
        (msg.from_hdr.getD "Remetente desconhecido".data) "rejected"
        { st with processed_count := st.processed_count + 1 }).1 = .completed
    · obtain ⟨fid, hm⟩ := hfm.1 hc
      exact ⟨[(msg.id, fid)], by simpa using hm⟩
    · exact ⟨[], by simpa using hfm.2 hc⟩
  | cons a rest =>
    cases ha : process_attachments a rest st with
    | error st' =>
      obtain ⟨-, -, hst⟩ := process_attachments_error ha
      refine ⟨[], ?_⟩
      simp only [ha]
      simp [hst]
    | ok p =>
      obtain ⟨st', tm⟩ := p
      obtain ⟨ed, b, -, -, -, -, -, -, hmv, -, -, -, -⟩ := process_attachments_ok ha
      have hfm := finish_message_moved env msg (msg.subject_hdr.getD "Sem assunto".data)
          (msg.from_hdr.getD "Remetente desconhecido".data) tm
          { st' with processed_count := st'.processed_count + 1 }
      by_cases hc : (finish_message env msg (msg.subject_hdr.getD "Sem assunto".data)
          (msg.from_hdr.getD "Remetente desconhecido".data) tm
          { st' with processed_count := st'.processed_count + 1 }).1 = .completed
      · obtain ⟨fid, hm⟩ := hfm.1 hc
        refine ⟨[(msg.id, fid)], ?_⟩
        simp only [ha]
        simp only at hm
        rw [hm, hmv]
      · refine ⟨[], ?_⟩
        have hm := hfm.2 hc
        simp only [ha]
        simp only at hm
        rw [hm, hmv]
        simp

/-! ## Claim theorems -/

/-- C2 (amended): `extract_cpf_cep` is a total function of the text; its
`cpf` field is the first occurrence in document order of the national-id
pattern *delimited by word boundaries* (the regexes carry `\b` anchors,
so an occurrence directly adjacent to a letter, digit or underscore does
not count), and its `cep` field likewise for the postal-code pattern;
each field is `none` exactly when no boundary-delimited occurrence
exists. -/
theorem claim_C2_extract_first_boundary_match (t : List Char) :
    ((extract_cpf_cep t).cpf = none ↔ ∀ i w, ¬ PatMatchAt CpfShape t i w) ∧
    (∀ m, (extract_cpf_cep t).cpf = some m →
      ∃ i, PatMatchAt CpfShape t i m ∧ ∀ j w, PatMatchAt CpfShape t j w → i ≤ j) ∧
    ((extract_cpf_cep t).cep = none ↔ ∀ i w, ¬ PatMatchAt CepShape t i w) ∧
    (∀ m, (extract_cpf_cep t).cep = some m →
      ∃ i, PatMatchAt CepShape t i m ∧ ∀ j w, PatMatchAt CepShape t j w → i ≤ j) := by
  have hcpf := re_search_pat_spec cpf_body CpfShape cpf_body_nil
    (fun {s r} h => cpf_body_sound h) (fun {w} r h => cpf_body_complete h r)
    (fun {w} h => cpfShape_ne_nil h) t
  have hcep := re_search_pat_spec cep_body CepShape cep_body_nil
    (fun {s r} h => cep_body_sound h) (fun {w} r h => cep_body_complete h r)
    (fun {w} h => cepShape_ne_nil h) t
  exact ⟨hcpf.1, hcpf.2, hcep.1, hcep.2⟩

/-- Witness for C2 at a concrete text containing both fields. -/
theorem claim_C2_extract_first_boundary_match_witness :
    ∃ i, PatMatchAt CpfShape "CPF 123.456.789-09 CEP 12345-678".data i
        "123.456.789-09".data ∧
      ∀ j w, PatMatchAt CpfShape "CPF 123.456.789-09 CEP 12345-678".data j w →
        i ≤ j :=
  (claim_C2_extract_first_boundary_match
    "CPF 123.456.789-09 CEP 12345-678".data).2.1 "123.456.789-09".data rfl

/-- C2 counterexample: in the text `123456789012` the spec-described
national-id shape occurs at position 0 (the first 11 digits) and the
postal-code shape as well (the first 8 digits), yet the extractor
returns neither field, because the occurrences are not delimited by word
boundaries. -/
theorem claim_C2_counterexample :
    "123456789012".data = "12345678901".data ++ "2".data ∧
    CpfShape "12345678901".data ∧
    "123456789012".data = "12345678".data ++ "9012".data ∧
    CepShape "12345678".data ∧
    (extract_cpf_cep "123456789012".data).cpf = none ∧
    (extract_cpf_cep "123456789012".data).cep = none := by
  refine ⟨rfl, ?_, rfl, ?_, rfl, rfl⟩
  · exact ⟨"123".data, [], "456".data, [], "789".data, [], "01".data,
      rfl, ⟨rfl, rfl⟩, Or.inl rfl, ⟨rfl, rfl⟩, Or.inl rfl, ⟨rfl, rfl⟩,
      Or.inl rfl, ⟨rfl, rfl⟩⟩
  · exact ⟨"12345".data, [], "678".data, rfl, ⟨rfl, rfl⟩, Or.inl rfl,
      ⟨rfl, rfl⟩⟩

/-- C6 (confirmed): with creation calls succeeding, resolving the folder
for the same (outcome, date) twice in one run returns the identical
reference both times and issues at most one creation call in total; when
an exact-name match already exists in the catalog no creation happens at
all. -/
theorem claim_C6_folder_router_idempotent (tm d : String) (s : GmailState)
    (h : s.create_fails = false) :
    (create_label tm d (create_label tm d s).2).1 = (create_label tm d s).1 ∧
    ((create_label tm d s).1).isSome = true ∧
    (create_label tm d (create_label tm d s).2).2 = (create_label tm d s).2 ∧
    (create_label tm d (create_label tm d s).2).2.create_calls ≤ s.create_calls + 1 ∧
    (((get_labels s).find?
        (fun l => l.name == "inbox/" ++ tm ++ "/" ++ d)).isSome = true →
      (create_label tm d s).2 = s) := by
  cases hf : (get_labels s).find? (fun l => l.name == "inbox/" ++ tm ++ "/" ++ d) with
  | some l =>
    have h1 : create_label tm d s = (some l.id, s) := by
      simp only [create_label]
      rw [hf]
    rw [h1]
    simp [h1, hf]
  | none =>
    have h1 : create_label tm d s =
        (some s.next_id,
          { s with labels := s.labels ++ [⟨s.next_id, "inbox/" ++ tm ++ "/" ++ d⟩],
                   next_id := s.next_id + 1,
                   create_calls := s.create_calls + 1 }) := by
      simp only [create_label, gmail_create_label]
      rw [hf]
      simp [h]
    have hf' : List.find? (fun l => l.name == "inbox/" ++ tm ++ "/" ++ d)
        s.labels = none := hf
    have h2 : create_label tm d (create_label tm d s).2 =
        (some s.next_id, (create_label tm d s).2) := by
      rw [h1]
      simp only [create_label, get_labels]
      rw [List.find?_append, hf']
      simp
    rw [h2, h1]
    simp [hf]

/-- Witness for C6 at the sample mailbox. -/
theorem claim_C6_folder_router_idempotent_witness :
    (create_label "valid" "2026-10-12"
        (create_label "valid" "2026-10-12" sampleGmail).2).1 =
      (create_label "valid" "2026-10-12" sampleGmail).1 ∧
    ((create_label "valid" "2026-10-12" sampleGmail).1).isSome = true ∧
    (create_label "valid" "2026-10-12"
        (create_label "valid" "2026-10-12" sampleGmail).2).2 =
      (create_label "valid" "2026-10-12" sampleGmail).2 ∧
    (create_label "valid" "2026-10-12"
        (create_label "valid" "2026-10-12" sampleGmail).2).2.create_calls ≤
      sampleGmail.create_calls + 1 ∧
    (((get_labels sampleGmail).find?
        (fun l => l.name == "inbox/" ++ "valid" ++ "/" ++ "2026-10-12")).isSome = true →
      (create_label "valid" "2026-10-12" sampleGmail).2 = sampleGmail) :=
  claim_C6_folder_router_idempotent "valid" "2026-10-12" sampleGmail rfl

/-- C3 (confirmed): for a message with at least one PDF attachment whose
attachment loop completes, the surviving class is computed from the
final `extracted_data`: `valid` iff both fields are present, otherwise
`rejected`; the last appended ledger row carries the error text, which
distinguishes the three rejection cases. -/
theorem claim_C3_classification (msg : EmailData) (a : Attachment)
    (rest : List Attachment) (st stA : RunState) (tm : String)
    (hpdf : pdfAtts msg = a :: rest)
    (hok : process_attachments a rest st = .ok (stA, tm)) :
    ∃ ed row, stA.extracted_data = some ed ∧
      tm = (classify_fields ed).2 ∧
      (tm = "valid" ↔ ed.cpf.isSome = true ∧ ed.cep.isSome = true) ∧
      (tm = "valid" ∨ tm = "rejected") ∧
      stA.ledger.getLast? = some row ∧
      row.erro = (classify_fields ed).1 ∧
      (ed.cpf.isNone = true ∧ ed.cep.isNone = true →
        (classify_fields ed).1 = "CPF e CEP inválidos") ∧
      (ed.cpf.isNone = true ∧ ed.cep.isSome = true →
        (classify_fields ed).1 = "CPF inválido") ∧
      (ed.cpf.isSome = true ∧ ed.cep.isNone = true →
        (classify_fields ed).1 = "CEP inválido") ∧
      (ed.cpf.isSome = true ∧ ed.cep.isSome = true →
        (classify_fields ed).1 = "N/A") := by
  obtain ⟨ed, b, h1, h2, -, -, -, h6, -, -, -, -, -⟩ := process_attachments_ok hok
  refine ⟨ed, ledger_row_for ed b, h1, h2, ?_, ?_, h6, rfl, ?_, ?_, ?_, ?_⟩
  all_goals cases hc : ed.cpf <;> cases he : ed.cep <;>
    simp [classify_fields, hc, he, h2]

/-- Witness for C3 on a one-attachment message whose PDF carries both
fields. -/
theorem claim_C3_classification_witness :
    ∃ ed row,
      (okState (process_attachments attBoth []
        (initState sampleGmail false))).extracted_data = some ed ∧
      okTm (process_attachments attBoth [] (initState sampleGmail false)) =
        (classify_fields ed).2 ∧
      (okTm (process_attachments attBoth [] (initState sampleGmail false)) = "valid" ↔
        ed.cpf.isSome = true ∧ ed.cep.isSome = true) ∧
      (okTm (process_attachments attBoth [] (initState sampleGmail false)) = "valid" ∨
        okTm (process_attachments attBoth [] (initState sampleGmail false)) = "rejected") ∧
      (okState (process_attachments attBoth []
        (initState sampleGmail false))).ledger.getLast? = some row ∧
      row.erro = (classify_fields ed).1 ∧
      (ed.cpf.isNone = true ∧ ed.cep.isNone = true →
        (classify_fields ed).1 = "CPF e CEP inválidos") ∧
      (ed.cpf.isNone = true ∧ ed.cep.isSome = true →
        (classify_fields ed).1 = "CPF inválido") ∧
      (ed.cpf.isSome = true ∧ ed.cep.isNone = true →
        (classify_fields ed).1 = "CEP inválido") ∧
      (ed.cpf.isSome = true ∧ ed.cep.isSome = true →
        (classify_fields ed).1 = "N/A") :=
  claim_C3_classification msgOnePdf attBoth [] (initState sampleGmail false)
    (okState (process_attachments attBoth [] (initState sampleGmail false)))
    (okTm (process_attachments attBoth [] (initState sampleGmail false)))
    rfl rfl

/-- C5 (confirmed): over the PDF attachments of one message, each later
successful extraction overwrites the earlier one wholesale (no merge),
and the fields used for classification are those of the last attachment
whose download, file check, and text extraction all succeeded. -/
theorem claim_C5_last_extraction_wins (msg : EmailData) (a : Attachment)
    (rest : List Attachment) (st stA : RunState) (tm : String) (txt : List Char)
    (hpdf : pdfAtts msg = a :: rest)
    (hok : process_attachments a rest st = .ok (stA, tm))
    (hlast : lastSuccText (a :: rest) = some txt) :
    stA.extracted_data = some (extract_cpf_cep txt) ∧
    tm = (classify_fields (extract_cpf_cep txt)).2 := by
  obtain ⟨ed, b, h1, h2, h3, -, -, -, -, -, -, -, -⟩ := process_attachments_ok hok
  have hx : stA.extracted_data = some (extract_cpf_cep txt) := by
    rw [h3, runExtract_lastSucc hlast]
  rw [hx] at h1
  have hed : ed = extract_cpf_cep txt := by
    have := h1.symm
    simpa using this
  subst hed
  exact ⟨hx, h2⟩

/-- Witness for C5 on the two-PDF message: the second attachment's text
(`nothing here`, no fields) is the one that survives. -/
theorem claim_C5_last_extraction_wins_witness :
    (okState (process_attachments attBoth [attNoneTxt]
        (initState sampleGmail false))).extracted_data =
      some (extract_cpf_cep "nothing here".data) ∧
    okTm (process_attachments attBoth [attNoneTxt] (initState sampleGmail false)) =
      (classify_fields (extract_cpf_cep "nothing here".data)).2 :=
  claim_C5_last_extraction_wins msgTwoPdfs attBoth [attNoneTxt]
    (initState sampleGmail false)
    (okState (process_attachments attBoth [attNoneTxt] (initState sampleGmail false)))
    (okTm (process_attachments attBoth [attNoneTxt] (initState sampleGmail false)))
    "nothing here".data rfl rfl rfl

/-- C10 (confirmed): `extracted_data` is never reset between attachments
or messages.  If every PDF attachment of a message fails, the loop
completes using the last successful extraction of an earlier attachment
or earlier message of the run — one ledger row per attachment, computed
from that stale value; if no extraction has succeeded yet in the run,
reading the unassigned variable raises, the message is abandoned at the
per-message boundary with no ledger row, no reply and no filing (only
the ledger file itself has been created). -/
theorem claim_C10_stale_extraction (env : Env) (msg : EmailData)
    (st : RunState) (a : Attachment) (rest : List Attachment)
    (hpdf : pdfAtts msg = a :: rest)
    (hfail : ∀ b ∈ (a :: rest), attSucceeds b = false) :
    (∀ ed0, st.extracted_data = some ed0 →
      ∃ stA, process_attachments a rest st = .ok (stA, (classify_fields ed0).2) ∧
        stA.extracted_data = some ed0 ∧
        stA.ledger.length = st.ledger.length + (rest.length + 1)) ∧
    (st.extracted_data = none →
      process_message env msg st = (.errored, { st with ledger_created := true })) := by
  have hA : attachment_extracts a = none := by
    have h1 := hfail a (by simp)
    cases hA' : attachment_extracts a with
    | none => rfl
    | some t => rw [attSucceeds, hA'] at h1; exact Bool.noConfusion h1
  constructor
  · intro ed0 h0
    obtain ⟨stA, tm, hok⟩ := @process_attachments_ok_of_some rest a _ _ h0
    obtain ⟨ed, b, h1, h2, h3, h4, -, -, -, -, -, -, -⟩ := process_attachments_ok hok
    have hnone : lastSuccText (a :: rest) = none := lastSuccText_eq_none_of_fail hfail
    have hsame : stA.extracted_data = some ed0 := by
      rw [h3, runExtract_of_lastSuccText_none hnone, h0]
    have hed : ed = ed0 := by
      rw [hsame] at h1
      simpa using h1.symm
    subst hed
    exact ⟨stA, h2 ▸ hok, hsame, h4⟩
  · intro h0
    have he : process_attachment a st = .error { st with ledger_created := true } := by
      simp [process_attachment, hA, h0]
    have hpa : process_attachments a rest st =
        .error { st with ledger_created := true } := by
      unfold process_attachments
      rw [he]
    rw [process_message_def, hpdf]
    simp [hpa]

/-- Witness for C10: a first message whose single PDF attachment fails to
download is abandoned with no ledger row, no reply and no filing. -/
theorem claim_C10_stale_extraction_witness :
    process_message sampleEnv msgBroken (initState sampleGmail false) =
      (.errored, { initState sampleGmail false with ledger_created := true }) :=
  (claim_C10_stale_extraction sampleEnv msgBroken (initState sampleGmail false)
    attBroken [] rfl (by decide)).2 rfl

/-- C7 (confirmed): an `errored` message is abandoned and the loop
continues with the next message; a `fatal` outcome — which only arises
from a failing folder-creation call — stops the whole run at once,
with every filing made so far preserved; a missing reply template (here:
the `rejected` one, for a no-PDF message) is an error caught at the
per-message boundary. -/
theorem claim_C7_error_boundaries (env : Env) (m : EmailData)
    (rest : List EmailData) (st : RunState) :
    (∀ st', process_message env m st = (.errored, st') →
      process_loop env (m :: rest) st = process_loop env rest st') ∧
    (∀ st', process_message env m st = (.fatal, st') →
      process_loop env (m :: rest) st = st' ∧
      st.gmail.create_fails = true ∧
      ∃ l, st'.moved = st.moved ++ l) ∧
    (pdfAtts m = [] → env.invalid_template_exists = false →
      (process_message env m st).1 = .errored) := by
  refine ⟨fun st' h => process_loop_cons_errored h, fun st' h => ?_, fun hp hinv => ?_⟩
  · refine ⟨process_loop_cons_fatal h, ?_, ?_⟩
    · have hmono := process_message_moved_mono env m st
      rw [process_message_def] at h
      cases hp : pdfAtts m with
      | nil =>
        rw [hp] at h
        simp only at h
        have h1 : (finish_message env m (m.subject_hdr.getD "Sem assunto".data)
            (m.from_hdr.getD "Remetente desconhecido".data) "rejected"
            { st with processed_count := st.processed_count + 1 }).1 = .fatal := by
          rw [h]
        have h2 := finish_message_fatal env m (m.subject_hdr.getD "Sem assunto".data)
            (m.from_hdr.getD "Remetente desconhecido".data) "rejected"
            { st with processed_count := st.processed_count + 1 } h1
        simpa using h2.1
      | cons a arest =>
        rw [hp] at h
        simp only at h
        cases ha : process_attachments a arest st with
        | error stE => rw [ha] at h; simp at h
        | ok p =>
          obtain ⟨stA, tm⟩ := p
          rw [ha] at h
          simp only at h
          obtain ⟨ed, b, -, -, -, -, -, -, -, -, hg, -, -⟩ := process_attachments_ok ha
          have h1 : (finish_message env m (m.subject_hdr.getD "Sem assunto".data)
              (m.from_hdr.getD "Remetente desconhecido".data) tm
              { stA with processed_count := stA.processed_count + 1 }).1 = .fatal := by
            rw [h]
          have h2 := finish_message_fatal env m (m.subject_hdr.getD "Sem assunto".data)
              (m.from_hdr.getD "Remetente desconhecido".data) tm
              { stA with processed_count := stA.processed_count + 1 } h1
          have h3 := h2.1
          simp only at h3
          rw [hg] at h3
          exact h3
    · obtain ⟨l, hl⟩ := process_message_moved_mono env m st
      rw [h] at hl
      exact ⟨l, hl⟩
  · rw [process_message_def, hp]
    have hcond : (if ("rejected" : String) == "valid" then env.valid_template_exists
        else env.invalid_template_exists) = false := by
      rw [show (("rejected" : String) == "valid") = false from rfl]
      simpa using hinv
    have he := finish_message_errored_of_template env m
      (m.subject_hdr.getD "Sem assunto".data)
      (m.from_hdr.getD "Remetente desconhecido".data) "rejected"
      { st with processed_count := st.processed_count + 1 } hcond
    simp [he]

/-- Witness for C7: a no-PDF message with the `rejected` template missing
is abandoned at the per-message boundary. -/
theorem claim_C7_error_boundaries_witness :
    (process_message sampleEnvNoInv msgNoPdf (initState sampleGmail false)).1 =
      .errored :=
  (claim_C7_error_boundaries sampleEnvNoInv msgNoPdf []
    (initState sampleGmail false)).2.2 rfl rfl

theorem finish_message_send_invariant (env : Env) (m1 m2 : EmailData)
    (subject sender : List Char) (tm : String) (st : RunState)
    (hid : m1.id = m2.id) (h1 : m1.send_fails = true) (h2 : m2.send_fails = false) :
    (finish_message env m1 subject sender tm st).1 =
      (finish_message env m2 subject sender tm st).1 ∧
    (finish_message env m1 subject sender tm st).2.moved =
      (finish_message env m2 subject sender tm st).2.moved ∧
    (finish_message env m1 subject sender tm st).2.gmail =
      (finish_message env m2 subject sender tm st).2.gmail ∧
    (finish_message env m1 subject sender tm st).2.ledger =
      (finish_message env m2 subject sender tm st).2.ledger ∧
    (finish_message env m1 subject sender tm st).2.processed_count =
      (finish_message env m2 subject sender tm st).2.processed_count ∧
    (finish_message env m1 subject sender tm st).2.sent.length ≤
      (finish_message env m2 subject sender tm st).2.sent.length := by
  rw [finish_message_eq, finish_message_eq]
  by_cases hb : (if tm == "valid" then env.valid_template_exists
      else env.invalid_template_exists) = true
  · rw [hb]
    rcases hcl : create_label tm env.date st.gmail with ⟨fid, g'⟩
    cases fid <;> simp [h1, h2, hid, hcl]
  · have hb' : (if tm == "valid" then env.valid_template_exists
        else env.invalid_template_exists) = false := by
      revert hb
      cases (if tm == "valid" then env.valid_template_exists
        else env.invalid_template_exists) <;> simp
    rw [hb']
    simp

/-- C9 (confirmed): a remote failure of the acknowledgement send is
printed and swallowed inside the mail client; the pipeline neither
aborts nor skips anything for that message — outcome, folder resolution
and filing are identical to the successful-send run, only the record of
sent mail is shorter. -/
theorem claim_C9_send_failure_swallowed (env : Env) (msg : EmailData)
    (st : RunState) :
    (process_message env { msg with send_fails := true } st).1 =
      (process_message env { msg with send_fails := false } st).1 ∧
    (process_message env { msg with send_fails := true } st).2.moved =
      (process_message env { msg with send_fails := false } st).2.moved ∧
    (process_message env { msg with send_fails := true } st).2.gmail =
      (process_message env { msg with send_fails := false } st).2.gmail ∧
    (process_message env { msg with send_fails := true } st).2.ledger =
      (process_message env { msg with send_fails := false } st).2.ledger ∧
    (process_message env { msg with send_fails := true } st).2.processed_count =
      (process_message env { msg with send_fails := false } st).2.processed_count ∧
    (process_message env { msg with send_fails := true } st).2.sent.length ≤
      (process_message env { msg with send_fails := false } st).2.sent.length := by
  rw [process_message_def, process_message_def]
  have hp1 : pdfAtts { msg with send_fails := true } = pdfAtts msg := rfl
  have hp2 : pdfAtts { msg with send_fails := false } = pdfAtts msg := rfl
  cases hp : pdfAtts msg with
  | nil =>
    simp only [hp1, hp2, hp]
    exact finish_message_send_invariant env _ _ _ _ "rejected" _ rfl rfl rfl
  | cons a arest =>
    simp only [hp1, hp2, hp]
    cases ha : process_attachments a arest st with
    | error stE => simp [ha]
    | ok p =>
      obtain ⟨stA, tm⟩ := p
      simp only [ha]
      exact finish_message_send_invariant env _ _ _ _ tm _ rfl rfl rfl

/-- C1 counterexample: one processed message with two PDF attachments
yields TWO ledger rows (the Excel block of main.py lines 131-172 sits
inside the attachment loop), not exactly one. -/
theorem claim_C1_counterexample :
    (process_emails sampleEnv sampleGmail false [msgTwoPdfs]).processed_count = 1 ∧
    (process_emails sampleEnv sampleGmail false [msgTwoPdfs]).ledger.length = 2 ∧
    (process_emails sampleEnv sampleGmail false [msgTwoPdfs]).moved.length = 1 :=
  ⟨rfl, rfl, rfl⟩

/-- C1 (amended): a message whose processing is not abandoned by the
per-message handler appends exactly one ledger row per PDF attachment
(in particular none when it has no PDF attachment), and it gains exactly
one folder assignment iff its processing completes — a message
abandoned after classification stays unfiled; prior filings are always
preserved. -/
theorem claim_C1_rows_per_attachment (env : Env) (msg : EmailData)
    (st : RunState) (out : MsgOutcome) (st' : RunState)
    (h : process_message env msg st = (out, st')) :
    (out ≠ .errored → st'.ledger.length = st.ledger.length + (pdfAtts msg).length) ∧
    (∃ l, st'.moved = st.moved ++ l ∧ l.length ≤ 1) ∧
    (out = .completed ↔ st'.moved.length = st.moved.length + 1) := by
  rw [process_message_def] at h
  cases hp : pdfAtts msg with
  | nil =>
    rw [hp] at h
    simp only at h
    have hfs := finish_message_state env msg (msg.subject_hdr.getD "Sem assunto".data)
      (msg.from_hdr.getD "Remetente desconhecido".data) "rejected"
      { st with processed_count := st.processed_count + 1 }
    have hfm := finish_message_moved env msg (msg.subject_hdr.getD "Sem assunto".data)
      (msg.from_hdr.getD "Remetente desconhecido".data) "rejected"
      { st with processed_count := st.processed_count + 1 }
    rw [h] at hfs hfm
    simp only at hfs hfm
    obtain ⟨hl, -, -, -, -⟩ := hfs
    refine ⟨fun _ => by simp [hl, hp], ?_, ?_, ?_⟩
    · by_cases hc : out = .completed
      · obtain ⟨fid, hm⟩ := hfm.1 hc
        exact ⟨[(msg.id, fid)], hm, by simp⟩
      · exact ⟨[], by simpa using hfm.2 hc, by simp⟩
    · intro hc
      obtain ⟨fid, hm⟩ := hfm.1 hc
      simp [hm]
    · intro hlen
      by_contra hc
      have hm := hfm.2 hc
      rw [hm] at hlen
      omega
  | cons a arest =>
    rw [hp] at h
    simp only at h
    cases ha : process_attachments a arest st with
    | error stE =>
      rw [ha] at h
      simp only [Prod.mk.injEq] at h
      obtain ⟨hout, hst⟩ := h
      obtain ⟨-, -, hstE⟩ := process_attachments_error ha
      refine ⟨fun hne => absurd hout.symm hne, ?_, ?_, ?_⟩
      · exact ⟨[], by rw [← hst, hstE]; simp, by simp⟩
      · intro hc
        rw [← hout] at hc
        exact absurd hc (by simp)
      · intro hlen
        rw [← hst, hstE] at hlen
        simp only at hlen
        omega
    | ok p =>
      obtain ⟨stA, tm⟩ := p
      rw [ha] at h
      simp only at h
      obtain ⟨ed, b, -, -, -, e4, -, -, e7, -, -, -, -⟩ := process_attachments_ok ha
      have hfs := finish_message_state env msg (msg.subject_hdr.getD "Sem assunto".data)
        (msg.from_hdr.getD "Remetente desconhecido".data) tm
        { stA with processed_count := stA.processed_count + 1 }
      have hfm := finish_message_moved env msg (msg.subject_hdr.getD "Sem assunto".data)
        (msg.from_hdr.getD "Remetente desconhecido".data) tm
        { stA with processed_count := stA.processed_count + 1 }
      rw [h] at hfs hfm
      simp only at hfs hfm
      obtain ⟨hl, -, -, -, -⟩ := hfs
      refine ⟨fun _ => ?_, ?_, ?_, ?_⟩
      · rw [hl]
        simpa using e4
      · by_cases hc : out = .completed
        · obtain ⟨fid, hm⟩ := hfm.1 hc
          exact ⟨[(msg.id, fid)], by rw [hm, e7], by simp⟩
        · exact ⟨[], by rw [hfm.2 hc, e7]; simp, by simp⟩
      · intro hc
        obtain ⟨fid, hm⟩ := hfm.1 hc
        rw [hm, e7]
        simp
      · intro hlen
        by_contra hc
        rw [hfm.2 hc, e7] at hlen
        omega

/-- Witness for C1 on a completed one-PDF message. -/
theorem claim_C1_rows_per_attachment_witness :
    (process_message sampleEnv msgOnePdf (initState sampleGmail false)).2.ledger.length =
      (initState sampleGmail false).ledger.length + (pdfAtts msgOnePdf).length :=
  (claim_C1_rows_per_attachment sampleEnv msgOnePdf (initState sampleGmail false)
    (process_message sampleEnv msgOnePdf (initState sampleGmail false)).1
    (process_message sampleEnv msgOnePdf (initState sampleGmail false)).2
    rfl).1 (by decide)

/-- C4 (code bug): a message with zero PDF attachments is classified
rejected — the `rejected` reply template is used and it is filed under
`inbox/rejected/<date>` — but NO ledger row is appended for it: the
Excel block sits inside the `if pdf_attachments:` branch, so the
`Nenhum anexo PDF encontrado` ledger branch (main.py lines 159-161) is
unreachable, and the run ends with an empty ledger. -/
theorem claim_C4_no_pdf_no_ledger_row :
    (process_emails sampleEnv sampleGmail false [msgNoPdf]).ledger = [] ∧
    (process_emails sampleEnv sampleGmail false [msgNoPdf]).processed_count = 1 ∧
    ((process_emails sampleEnv sampleGmail false [msgNoPdf]).sent.map
      (fun e => e.template)) = ["rejected"] ∧
    ((process_emails sampleEnv sampleGmail false [msgNoPdf]).gmail.labels.map
      (fun l => l.name)) = ["INBOX", "inbox/rejected/2026-10-12"] :=
  ⟨rfl, rfl, rfl, rfl⟩

/-- C8 counterexample: a run over one message without PDF attachments
reports one processed message while zero ledger rows were appended. -/
theorem claim_C8_counterexample :
    (process_emails sampleEnv sampleGmail false [msgNoPdf]).processed_count = 1 ∧
    (process_emails sampleEnv sampleGmail false [msgNoPdf]).ledger.length = 0 :=
  ⟨rfl, rfl⟩

/-- C8 (amended): the processed-count counts exactly the messages whose
attachment phase finished without an uncaught error (the count happens
at main.py line 181, before reply and filing).  For a zero-PDF message
this counts the message although no ledger row is appended for it. -/
theorem claim_C8_count_semantics (env : Env) (msg : EmailData)
    (st : RunState) (out : MsgOutcome) (st' : RunState)
    (h : process_message env msg st = (out, st')) :
    (st'.processed_count = st.processed_count + 1 ∨
      (st'.processed_count = st.processed_count ∧ out = .errored)) ∧
    (st'.processed_count = st.processed_count + 1 ↔
      (pdfAtts msg = [] ∨
        ∃ a rest stA tm, pdfAtts msg = a :: rest ∧
          process_attachments a rest st = .ok (stA, tm))) ∧
    (pdfAtts msg = [] → st'.ledger = st.ledger) := by
  rw [process_message_def] at h
  cases hp : pdfAtts msg with
  | nil =>
    rw [hp] at h
    simp only at h
    have hfs := finish_message_state env msg (msg.subject_hdr.getD "Sem assunto".data)
      (msg.from_hdr.getD "Remetente desconhecido".data) "rejected"
      { st with processed_count := st.processed_count + 1 }
    rw [h] at hfs
    simp only at hfs
    obtain ⟨hl, -, -, hcnt, -⟩ := hfs
    exact ⟨Or.inl hcnt, ⟨fun _ => Or.inl rfl, fun _ => hcnt⟩, fun _ => hl⟩
  | cons a arest =>
    rw [hp] at h
    simp only at h
    cases ha : process_attachments a arest st with
    | error stE =>
      rw [ha] at h
      simp only [Prod.mk.injEq] at h
      obtain ⟨hout, hst⟩ := h
      obtain ⟨-, -, hstE⟩ := process_attachments_error ha
      have hcnt : st'.processed_count = st.processed_count := by
        rw [← hst, hstE]
      refine ⟨Or.inr ⟨hcnt, hout.symm⟩, ?_, ?_⟩
      · constructor
        · intro hlen
          rw [hcnt] at hlen
          omega
        · rintro (hnil | ⟨a', rest', stA', tm', hpe, hoke⟩)
          · exact absurd hnil (by simp)
          · injection hpe with h1 h2
            subst h1
            subst h2
            rw [ha] at hoke
            exact Except.noConfusion hoke
      · intro hnil
        exact absurd hnil (by simp)
    | ok p =>
      obtain ⟨stA, tm⟩ := p
      rw [ha] at h
      simp only at h
      obtain ⟨ed, b, -, -, -, -, -, -, -, -, -, e10, -⟩ := process_attachments_ok ha
      have hfs := finish_message_state env msg (msg.subject_hdr.getD "Sem assunto".data)
        (msg.from_hdr.getD "Remetente desconhecido".data) tm
        { stA with processed_count := stA.processed_count + 1 }
      rw [h] at hfs
      simp only at hfs
      obtain ⟨-, -, -, hcnt, -⟩ := hfs
      have hcnt' : st'.processed_count = st.processed_count + 1 := by
        rw [hcnt, e10]
      refine ⟨Or.inl hcnt', ?_, ?_⟩
      · exact ⟨fun _ => Or.inr ⟨a, arest, stA, tm, rfl, ha⟩, fun _ => hcnt'⟩
      · intro hnil
        exact absurd hnil (by simp)

/-- Witness for C8 on a completed one-PDF message. -/
theorem claim_C8_count_semantics_witness :
    (process_message sampleEnv msgOnePdf (initState sampleGmail false)).2.processed_count =
      (initState sampleGmail false).processed_count + 1 ∨
    ((process_message sampleEnv msgOnePdf (initState sampleGmail false)).2.processed_count =
      (initState sampleGmail false).processed_count ∧
      (process_message sampleEnv msgOnePdf (initState sampleGmail false)).1 = .errored) :=
  (claim_C8_count_semantics sampleEnv msgOnePdf (initState sampleGmail false)
    (process_message sampleEnv msgOnePdf (initState sampleGmail false)).1
    (process_message sampleEnv msgOnePdf (initState sampleGmail false)).2
    rfl).1

end ModuloCD
